import Mathlib

/-!
# NetworkLib — shallow embedding and verification

A shallow embedding of the framing / connection-lifecycle / message-delivery
layer of the NetworkLib repository (Python), together with theorems checking
the natural-language specification against it.

Bytes are modelled as `List Nat` (each entry intended `< 256`).  Python
library calls (`str.encode("UTF-8")`, `bytes.decode("UTF-8")`,
`int.to_bytes`, `int.from_bytes`, `socket.recv`, `socket.recvfrom`) are
modelled by explicit Lean functions with the documented semantics of those
calls; everything else is translated line-by-line from the repository's
source files.
-/

/-! ## Byte-order helpers: models of int.from_bytes / int.to_bytes -/

/-- Model of Python `int.from_bytes(bs, byteorder="big")`: big-endian

unsigned interpretation of a byte string.  Total, and `0` on `[]`. -/
def fromBytesBE (bs : List Nat) : Nat :=
  bs.foldl (fun acc b => acc * 256 + b) 0

/-- The unchecked big-endian byte expansion used by `int.to_bytes`:

`toBytesBE l n` is the list of the `l` big-endian base-256 digits of `n`. -/
def toBytesBE : Nat → Nat → List Nat
  | 0, _ => []
  | l + 1, n => toBytesBE l (n / 256) ++ [n % 256]

/-- Model of Python `n.to_bytes(length, byteorder="big")` for `n : Nat`:

raises `OverflowError` (here `none`) exactly when `n` does not fit in
`length` bytes, i.e. when `256 ^ length ≤ n`. -/
def to_bytes (n : Nat) (length : Nat) : Option (List Nat) :=
  if n < 256 ^ length then some (toBytesBE length n) else none

/-! ## UTF-8 codec: models of str.encode("UTF-8") / bytes.decode("UTF-8") -/

/-- Model of Python UTF-8 encoding of a single unicode scalar value

(standard UTF-8, 1–4 bytes, expressed in `Nat` arithmetic). -/
def utf8EncodeChar (c : Char) : List Nat :=
  let n := c.toNat
  if n < 0x80 then [n]
  else if n < 0x800 then [0xC0 + n / 64, 0x80 + n % 64]
  else if n < 0x10000 then
    [0xE0 + n / 4096, 0x80 + (n / 64) % 64, 0x80 + n % 64]
  else
    [0xF0 + n / 262144, 0x80 + (n / 4096) % 64, 0x80 + (n / 64) % 64,
      0x80 + n % 64]

/-- Model of Python `message.encode("UTF-8")`. -/
def utf8Encode (message : String) : List Nat :=
  message.data.flatMap utf8EncodeChar

/-- A UTF-8 continuation byte: high bits `10`. -/
def isCont (b : Nat) : Bool := 0x80 ≤ b && b < 0xC0

/-- Decode one UTF-8 scalar from lead byte `b` followed by `rest`:

returns the character and the unconsumed remainder, or `none` on any
malformed, overlong, surrogate or out-of-range sequence. -/
def utf8DecodeOne (b : Nat) (rest : List Nat) : Option (Char × List Nat) :=
  if b < 0x80 then some (Char.ofNat b, rest)
  else if b < 0xC2 then none
  else if b < 0xE0 then
    match rest with
    | b2 :: rest2 =>
      if isCont b2 then
        some (Char.ofNat ((b - 0xC0) * 64 + (b2 - 0x80)), rest2)
      else none
    | [] => none
  else if b < 0xF0 then
    match rest with
    | b2 :: b3 :: rest3 =>
      if isCont b2 && isCont b3 then
        let n := (b - 0xE0) * 4096 + (b2 - 0x80) * 64 + (b3 - 0x80)
        if n < 0x800 || (0xD800 ≤ n && n < 0xE000) then none
        else some (Char.ofNat n, rest3)
      else none
    | _ => none
  else if b < 0xF5 then
    match rest with
    | b2 :: b3 :: b4 :: rest4 =>
      if isCont b2 && isCont b3 && isCont b4 then
        let n := (b - 0xF0) * 262144 + (b2 - 0x80) * 4096 +
          (b3 - 0x80) * 64 + (b4 - 0x80)
        if n < 0x10000 || 0x110000 ≤ n then none
        else some (Char.ofNat n, rest4)
      else none
    | _ => none
  else none

/-- Iterated scalar decoding.  Each step consumes at least the lead byte,

so fuel equal to the byte count always suffices; running out of fuel with
bytes left can therefore only signal malformed input. -/
def utf8DecodeLoop : Nat → List Nat → Option (List Char)
  | _, [] => some []
  | 0, _ :: _ => none
  | fuel + 1, b :: rest =>
    match utf8DecodeOne b rest with
    | none => none
    | some (c, rest2) =>
      (utf8DecodeLoop fuel rest2).map (fun cs => c :: cs)

/-- Model of strict UTF-8 decoding to a character list: `none` where

Python's strict `bytes.decode("UTF-8")` raises `UnicodeDecodeError`. -/
def utf8DecodeChars (bs : List Nat) : Option (List Char) :=
  utf8DecodeLoop bs.length bs

/-- Model of Python `message_bytes.decode("UTF-8")` (strict). -/
def utf8Decode (bs : List Nat) : Option String :=
  (utf8DecodeChars bs).map (fun cs => String.mk cs)

/-! ## NetworkLib.Utils — the pure codec functions -/

/-- `NetworkLib/Utils/prepare_message.py`, `prepare_message`:

UTF-8-encode the message, prepend its byte length as `prepend_bytes`
big-endian bytes.  `none` models the `OverflowError` raised by
`to_bytes` when the length does not fit. -/
def prepare_message (message : String) (prepend_bytes : Nat := 4) :
    Option (List Nat) := do
  let message_bytes := utf8Encode message
  let message_length ← to_bytes message_bytes.length prepend_bytes
  return message_length ++ message_bytes

/-- `NetworkLib/Utils/read_message_length.py`, `read_message_length`:

big-endian value of the first `prepend_bytes` bytes of the input
(Python slicing silently shortens the slice when the input is short). -/
def read_message_length (prepared_message : List Nat)
    (prepend_bytes : Nat := 4) : Nat :=
  fromBytesBE (prepared_message.take prepend_bytes)

/-! ## Stream socket model

Inbound data on a TCP connection is modelled as a list of chunks: the byte
groups that have reached the kernel buffer, in order.  A single
`socket.recv(n)` returns at most `n` bytes and may legally return fewer
(a short read); this model realises one legal behaviour: `recv n` returns
up to `n` bytes from the first pending chunk only.  `closed = true` means
the remote side has closed the stream, in which case `recv` on a drained
buffer returns the empty byte string and `select` reports the socket
readable. -/

structure SockStream where
  chunks : List (List Nat)
  closed : Bool
deriving DecidableEq, Repr

/-- Model of Python `connection.recv(n)` on the chunked stream. -/
def SockStream.recv (s : SockStream) (n : Nat) : List Nat × SockStream :=
  match s.chunks with
  | [] => ([], s)
  | c :: rest =>
    let taken := c.take n
    let left := c.drop n
    (taken, { s with chunks := if left.isEmpty then rest else left :: rest })

/-- Model of the `select.select([sock], [], [], timeout)` readiness test:

a stream socket is readable when buffered data is pending or the peer has
closed the connection (EOF is a readable event). -/
def SockStream.readable (s : SockStream) : Bool :=
  !s.chunks.isEmpty || s.closed

/-! ## NetworkLib.TCP — receive path

`Server._receive_messages_from_client` (Server.py lines 179–188) and
`Client._receive_messages` (Client.py lines 60–69) have the same body; it
is embedded once.  One readable iteration does:

    message_length = int.from_bytes(connection.recv(prepend_bytes_size), "big")
    message_bytes  = connection.recv(message_length)
    queue.put(message_bytes.decode("UTF-8"))

`none` in the first component models the `UnicodeDecodeError` that a strict
decode raises on malformed payload bytes. -/

def receive_step (prepend_bytes : Nat) (s : SockStream) :
    Option String × SockStream :=
  let (lenBytes, s1) := s.recv prepend_bytes
  let message_length := fromBytesBE lenBytes
  let (message_bytes, s2) := s1.recv message_length
  (utf8Decode message_bytes, s2)

/-- The receive loop `while not stop_event.is_set(): if readable: …`.

Fuel counts poll cycles before the stop event is set; each cycle runs the
body above when the socket is readable.  The Python body contains no exit
path of its own: a decode exception kills the thread (modelled by
returning), and nothing else ever leaves the loop. -/
def receive_loop (prepend_bytes : Nat) :
    Nat → SockStream → List String → List String × SockStream
  | 0, s, q => (q, s)
  | fuel + 1, s, q =>
    if s.readable then
      match receive_step prepend_bytes s with
      | (some msg, s2) => receive_loop prepend_bytes fuel s2 (q ++ [msg])
      | (none, s2) => (q, s2)
    else receive_loop prepend_bytes fuel s q

/-! ## NetworkLib.TCP.Server — send path and listener lifecycle -/

/-- `Server.send_message_to` (Server.py lines 271–279): the bytes written

to the peer's socket are exactly `message.encode("UTF-8")` — the code calls
`sendall` on the raw UTF-8 bytes, with no length header. -/
def Server.send_message_to (message : String) : List Nat :=
  utf8Encode message

/-- `Server.send_message_to_all` (Server.py lines 281–289): iterate the

registry in order, calling `send_message_to` on each peer.  The registry is
modelled as peers paired with the health of their socket; an unhealthy
socket makes `sendall` raise, and the exception propagates out of the
loop.  Result: the list of (peer, bytes written) pairs actually delivered,
and the peer whose send raised, if any. -/
def Server.send_message_to_all (message : String) :
    List (Nat × Bool) → List (Nat × List Nat) × Option Nat
  | [] => ([], none)
  | (ip, healthy) :: rest =>
    if healthy then
      let (sent, err) := Server.send_message_to_all message rest
      ((ip, Server.send_message_to message) :: sent, err)
    else ([], some ip)

/-- Model of Python `threading.Thread.start()`: starting an already

started thread raises `RuntimeError("threads can only be started once")`. -/
def thread_start (started : Bool) : Except String Bool :=
  if started then Except.error "threads can only be started once"
  else Except.ok true

/-- `Server.listen_for_messages` (Server.py lines 213–244), branch where

`_receive_clients_messages_threads is None`: for every registered client
the code runs

    self._setup_listening_thread_for(ip, connection).start()
    self._receive_clients_messages_threads[ip].start()

i.e. it starts the very same freshly created thread twice.  The result is
the thread dictionary (peer ↦ started flag) or the propagated
`RuntimeError`. -/
def Server.listen_for_messages_fresh (clients : List Nat) :
    Except String (List (Nat × Bool)) :=
  clients.foldlM
    (fun threads ip => do
      let t ← thread_start false
      let t2 ← thread_start t
      return threads ++ [(ip, t2)])
    []

/-! ## NetworkLib.TCP.Client — listener lifecycle -/

/-- Client state: `_receive_messages_thread` is `none` when no thread

object exists, `some started` when one exists with the given started
flag. -/
structure Client.State where
  receive_messages_thread : Option Bool
deriving DecidableEq, Repr

/-- `Client.listen_for_messages` (Client.py lines 71–93): swallows the

`getpeername` check, then, when `_receive_messages_thread is None`,
constructs a `threading.Thread` — and never calls `.start()` on it, so the
new thread object exists but is not running (`some false`). -/
def Client.listen_for_messages (s : Client.State) : Client.State :=
  if s.receive_messages_thread.isNone then
    { receive_messages_thread := some false }
  else s

/-- The number of running receive loops a client state carries. -/
def Client.running_loops (s : Client.State) : Nat :=
  match s.receive_messages_thread with
  | some true => 1
  | _ => 0

/-! ## NetworkLib.UDP.Messages -/

/-- UDP endpoint state: the optional receive thread (with started flag)

and whether the socket is still open. -/
structure UDP.State where
  receive_messages_thread : Option Bool
  socket_open : Bool
deriving DecidableEq, Repr

/-- `Messages.listen_for_messages` (UDP/Messages.py lines 72–90): when no

thread exists, create one and start it; otherwise do nothing. -/
def UDP.listen_for_messages (s : UDP.State) : UDP.State :=
  if s.receive_messages_thread.isNone then
    { s with receive_messages_thread := some true }
  else s

/-- `Messages.stop_listening_for_messages` (UDP/Messages.py lines

122–140): when a thread exists, signal it, join it, and set the field back
to `None`; otherwise do nothing. -/
def UDP.stop_listening_for_messages (s : UDP.State) : UDP.State :=
  if s.receive_messages_thread.isSome then
    { s with receive_messages_thread := none }
  else s

/-- `Messages.close_socket` (UDP/Messages.py lines 142–156):

    if self._receive_messages_thread is not None:
        raise RuntimeError("Please call stop_listening_for_messages ...")
    self._socket.close()
-/
def UDP.close_socket (s : UDP.State) : Except String UDP.State :=
  if s.receive_messages_thread.isSome then
    Except.error "Please call stop_listening_for_messages before closing the socket."
  else Except.ok { s with socket_open := false }

/-- One readable iteration of `Messages._receive_messages`

(UDP/Messages.py lines 53–70) on an arriving datagram:

    message_bytes, address = self._socket.recvfrom(self.port)
    message = message_bytes.decode("utf-8")
    self._received_messages.put((message, address))

`recvfrom(bufsize)` delivers at most `bufsize` bytes of the datagram and
discards the rest — and the code passes the bound port number as the
buffer size.  `none` models a `UnicodeDecodeError` (thread dies). -/
def UDP.receive_step (port : Nat) (datagram : List Nat) (address : Nat)
    (q : List (String × Nat)) : Option (List (String × Nat)) :=
  let message_bytes := datagram.take port
  (utf8Decode message_bytes).map (fun message => q ++ [(message, address)])

/-! ## Helper lemmas -/

theorem toBytesBE_length (l : Nat) : ∀ n, (toBytesBE l n).length = l := by
  induction l with
  | zero => intro n; rfl
  | succ l ih => intro n; simp [toBytesBE, ih]

theorem fromBytesBE_append (xs : List Nat) (b : Nat) :
    fromBytesBE (xs ++ [b]) = fromBytesBE xs * 256 + b := by
  simp [fromBytesBE, List.foldl_append]

theorem fromBytesBE_toBytesBE (l : Nat) :
    ∀ n, n < 256 ^ l → fromBytesBE (toBytesBE l n) = n := by
  induction l with
  | zero =>
    intro n h
    simp only [pow_zero, Nat.lt_one_iff] at h
    simp [h, toBytesBE, fromBytesBE]
  | succ l ih =>
    intro n h
    have hd : n / 256 < 256 ^ l := by
      rw [pow_succ] at h
      omega
    rw [toBytesBE, fromBytesBE_append, ih _ hd]
    omega

theorem utf8DecodeOne_encodeChar (c : Char) (bs : List Nat) :
    ∃ b tail, utf8EncodeChar c = b :: tail ∧
      utf8DecodeOne b (tail ++ bs) = some (c, bs) := by
  have hv : c.toNat < 0xD800 ∨ (0xDFFF < c.toNat ∧ c.toNat < 0x110000) := c.valid
  have hofNat : Char.ofNat c.toNat = c := Char.ofNat_toNat c
  by_cases h1 : c.toNat < 0x80
  · refine ⟨c.toNat, [], ?_, ?_⟩
    · simp [utf8EncodeChar, h1]
    · simp only [List.nil_append, utf8DecodeOne, if_pos h1, hofNat]
  · by_cases h2 : c.toNat < 0x800
    · refine ⟨0xC0 + c.toNat / 64, [0x80 + c.toNat % 64], ?_, ?_⟩
      · simp [utf8EncodeChar, h1, h2]
      · have n1 : ¬ (0xC0 + c.toNat / 64 < 0x80) := by omega
        have n2 : ¬ (0xC0 + c.toNat / 64 < 0xC2) := by omega
        have n3 : 0xC0 + c.toNat / 64 < 0xE0 := by omega
        have n4 : isCont (0x80 + c.toNat % 64) = true := by
          simp [isCont]
          omega
        have n5 : (0xC0 + c.toNat / 64 - 0xC0) * 64 +
            (0x80 + c.toNat % 64 - 0x80) = c.toNat := by omega
        simp only [List.cons_append, List.nil_append, utf8DecodeOne,
          if_neg n1, if_neg n2, if_pos n3, n4, if_true, n5, hofNat]
    · by_cases h3 : c.toNat < 0x10000
      · refine ⟨0xE0 + c.toNat / 4096,
          [0x80 + c.toNat / 64 % 64, 0x80 + c.toNat % 64], ?_, ?_⟩
        · simp [utf8EncodeChar, h1, h2, h3]
        · have n1 : ¬ (0xE0 + c.toNat / 4096 < 0x80) := by omega
          have n2 : ¬ (0xE0 + c.toNat / 4096 < 0xC2) := by omega
          have n3 : ¬ (0xE0 + c.toNat / 4096 < 0xE0) := by omega
          have n4 : 0xE0 + c.toNat / 4096 < 0xF0 := by omega
          have n5 : isCont (0x80 + c.toNat / 64 % 64) = true := by
            simp [isCont]
            omega
          have n6 : isCont (0x80 + c.toNat % 64) = true := by
            simp [isCont]
            omega
          have n7 : (0xE0 + c.toNat / 4096 - 0xE0) * 4096 +
              (0x80 + c.toNat / 64 % 64 - 0x80) * 64 +
              (0x80 + c.toNat % 64 - 0x80) = c.toNat := by omega
          have g : ¬ ((decide (c.toNat < 0x800) ||
              (decide (0xD800 ≤ c.toNat) && decide (c.toNat < 0xE000))) = true) := by
            simp
            omega
          simp only [List.cons_append, List.nil_append, utf8DecodeOne,
            if_neg n1, if_neg n2, if_neg n3, if_pos n4, n5, n6, Bool.and_self,
            if_true, n7, if_neg g, hofNat]
      · have hlt : c.toNat < 0x110000 := by omega
        refine ⟨0xF0 + c.toNat / 262144,
          [0x80 + c.toNat / 4096 % 64, 0x80 + c.toNat / 64 % 64,
            0x80 + c.toNat % 64], ?_, ?_⟩
        · simp [utf8EncodeChar, h1, h2, h3]
        · have n1 : ¬ (0xF0 + c.toNat / 262144 < 0x80) := by omega
          have n2 : ¬ (0xF0 + c.toNat / 262144 < 0xC2) := by omega
          have n3 : ¬ (0xF0 + c.toNat / 262144 < 0xE0) := by omega
          have n4 : ¬ (0xF0 + c.toNat / 262144 < 0xF0) := by omega
          have n5 : 0xF0 + c.toNat / 262144 < 0xF5 := by omega
          have n6 : isCont (0x80 + c.toNat / 4096 % 64) = true := by
            simp [isCont]
            omega
          have n7 : isCont (0x80 + c.toNat / 64 % 64) = true := by
            simp [isCont]
            omega
          have n8 : isCont (0x80 + c.toNat % 64) = true := by
            simp [isCont]
            omega
          have n9 : (0xF0 + c.toNat / 262144 - 0xF0) * 262144 +
              (0x80 + c.toNat / 4096 % 64 - 0x80) * 4096 +
              (0x80 + c.toNat / 64 % 64 - 0x80) * 64 +
              (0x80 + c.toNat % 64 - 0x80) = c.toNat := by omega
          have g : ¬ ((decide (c.toNat < 0x10000) ||
              decide (0x110000 ≤ c.toNat)) = true) := by
            simp
            omega
          simp only [List.cons_append, List.nil_append, utf8DecodeOne,
            if_neg n1, if_neg n2, if_neg n3, if_neg n4, if_pos n5, n6, n7, n8,
            Bool.and_self, if_true, n9, if_neg g, hofNat]

theorem utf8EncodeChar_ne_nil (c : Char) : utf8EncodeChar c ≠ [] := by
  obtain ⟨b, tail, henc, -⟩ := utf8DecodeOne_encodeChar c []
  simp [henc]

theorem utf8DecodeLoop_flatMap (cs : List Char) :
    ∀ fuel, (cs.flatMap utf8EncodeChar).length ≤ fuel →
      utf8DecodeLoop fuel (cs.flatMap utf8EncodeChar) = some cs := by
  induction cs with
  | nil =>
    intro fuel h
    cases fuel <;> rfl
  | cons c cs ih =>
    intro fuel h
    obtain ⟨b, tail, henc, hdec⟩ :=
      utf8DecodeOne_encodeChar c (cs.flatMap utf8EncodeChar)
    rw [List.flatMap_cons, henc] at h ⊢
    rw [List.cons_append]
    cases fuel with
    | zero => simp at h
    | succ f =>
      have hrest : (cs.flatMap utf8EncodeChar).length ≤ f := by
        rw [List.length_append, List.length_cons] at h
        omega
      rw [utf8DecodeLoop, hdec]
      simp [ih f hrest]

theorem utf8DecodeChars_flatMap (cs : List Char) :
    utf8DecodeChars (cs.flatMap utf8EncodeChar) = some cs :=
  utf8DecodeLoop_flatMap cs _ le_rfl

theorem utf8Decode_utf8Encode (m : String) :
    utf8Decode (utf8Encode m) = some m := by
  cases m with
  | mk data => simp [utf8Decode, utf8Encode, utf8DecodeChars_flatMap]

/-! ## Claim theorems -/

/-- Claim C1 (code_bug evidence): the spec says `send_message_to` writes the

length-prefixed frame produced by `prepare_message`; the code calls
`sendall(message.encode("UTF-8"))`, so the bytes written to the peer's
socket are the raw UTF-8 payload with no header.  For "hi" the frame would
be `[0,0,0,2,104,105]`, but the code writes `[104,105]`. -/
theorem send_message_to_omits_header :
    Server.send_message_to "hi" = [104, 105] ∧
    prepare_message "hi" 4 = some [0, 0, 0, 2, 104, 105] ∧
    some (Server.send_message_to "hi") ≠ prepare_message "hi" 4 := by
  refine ⟨by decide, by decide, by decide⟩

/-- Claim C2 (code_bug evidence): the receive body does one single-shot

`recv` for the header and one for the payload.  When the frame
`prepare_message "ab" = [0,0,0,2,97,98]` arrives split into the chunks
`[0,0,0,2,97]` and `[98]`, the payload read returns the short read `[97]`
and the iteration enqueues "a" instead of "ab", leaving a stray byte in
the stream. -/
theorem receive_step_short_read :
    prepare_message "ab" 4 = some [0, 0, 0, 2, 97, 98] ∧
    receive_step 4 (SockStream.mk [[0, 0, 0, 2, 97], [98]] false) =
      (some "a", SockStream.mk [[98]] false) ∧
    ("a" : String) ≠ "ab" := by
  refine ⟨by decide, by decide, by decide⟩

/-- Claim C3 (code_bug evidence): after the remote side closes the stream,

`select` keeps reporting the socket readable, the zero-byte reads make the
body decode a length-0 message, and each poll cycle enqueues "" — the loop
neither exits nor marks anything closed. -/
theorem receive_loop_spins_after_close :
    SockStream.readable (SockStream.mk [] true) = true ∧
    receive_loop 4 3 (SockStream.mk [] true) [] =
      (["", "", ""], SockStream.mk [] true) := by
  refine ⟨by decide, by decide⟩

/-- Claim C4 (confirmed): for every message whose UTF-8 byte length fits in

`H` header bytes, `prepare_message` succeeds, `read_message_length`
recovers the payload byte length from the first `H` frame bytes, and the
remaining frame bytes UTF-8-decode back to the message. -/
theorem prepare_message_roundtrip (m : String) (H : Nat)
    (h : (utf8Encode m).length < 2 ^ (8 * H)) :
    prepare_message m H =
      some (toBytesBE H (utf8Encode m).length ++ utf8Encode m) ∧
    read_message_length
        (toBytesBE H (utf8Encode m).length ++ utf8Encode m) H =
      (utf8Encode m).length ∧
    utf8Decode
        ((toBytesBE H (utf8Encode m).length ++ utf8Encode m).drop H) =
      some m := by
  have h' : (utf8Encode m).length < 256 ^ H := by
    have e : (2 : Nat) ^ (8 * H) = 256 ^ H := by
      rw [pow_mul]
      norm_num
    rw [e] at h
    exact h
  refine ⟨?_, ?_, ?_⟩
  · simp [prepare_message, to_bytes, h']
  · rw [read_message_length, List.take_left' (toBytesBE_length H _),
      fromBytesBE_toBytesBE H _ h']
  · rw [List.drop_left' (toBytesBE_length H _), utf8Decode_utf8Encode]

/-- Witness for C4 at the concrete message "ab" with the default header

width 4. -/
theorem prepare_message_roundtrip_witness :
    (utf8Encode "ab").length < 2 ^ (8 * 4) ∧
    prepare_message "ab" 4 =
      some (toBytesBE 4 (utf8Encode "ab").length ++ utf8Encode "ab") ∧
    read_message_length
        (toBytesBE 4 (utf8Encode "ab").length ++ utf8Encode "ab") 4 =
      (utf8Encode "ab").length ∧
    utf8Decode
        ((toBytesBE 4 (utf8Encode "ab").length ++ utf8Encode "ab").drop 4) =
      some "ab" :=
  ⟨by decide, prepare_message_roundtrip "ab" 4 (by decide)⟩

/-- Claim C5 (code_bug evidence): `send_message_to_all` iterates the

registry with no error handling, so the exception from the first broken
socket aborts the loop.  With registry `[(1, broken), (2, healthy)]`
nothing is delivered and peer 2 is never attempted; with
`[(2, healthy), (1, broken), (3, healthy)]` peer 3 is skipped.  The
result reports only the one propagated exception, never a set of failed
peers. -/
theorem send_message_to_all_stops_at_first_failure :
    Server.send_message_to_all "x" [(1, false), (2, true)] = ([], some 1) ∧
    Server.send_message_to_all "x" [(2, true), (1, false), (3, true)] =
      ([(2, utf8Encode "x")], some 1) := by
  refine ⟨by decide, by decide⟩

/-- Claim C6 (code_bug evidence): `Server.listen_for_messages` starts each

freshly created per-client thread twice (`RuntimeError` on the second
`start`), and `Client.listen_for_messages` constructs its thread object
but never calls `start`, so no receive loop runs at all. -/
theorem listen_for_messages_defects :
    Server.listen_for_messages_fresh [1] =
      Except.error "threads can only be started once" ∧
    Client.running_loops (Client.listen_for_messages (Client.State.mk none))
      = 0 ∧
    (Client.listen_for_messages
        (Client.State.mk none)).receive_messages_thread = some false := by
  refine ⟨rfl, rfl, rfl⟩

/-- Claim C7 (confirmed): `close_socket` raises (`RuntimeError`, the

spec's `PreconditionError`) exactly when the receive thread is still
attached, succeeds releasing the socket exactly when it is not, and always
succeeds right after `stop_listening_for_messages`. -/
theorem close_socket_requires_stopped (s : UDP.State) :
    (UDP.close_socket s =
        Except.error
          "Please call stop_listening_for_messages before closing the socket."
      ↔ s.receive_messages_thread.isSome = true) ∧
    (UDP.close_socket s = Except.ok { s with socket_open := false }
      ↔ s.receive_messages_thread = none) ∧
    UDP.close_socket (UDP.stop_listening_for_messages s) =
      Except.ok
        { UDP.stop_listening_for_messages s with socket_open := false } := by
  obtain ⟨t, o⟩ := s
  cases t <;>
    simp [UDP.close_socket, UDP.stop_listening_for_messages]

/-- Claim C8 (confirmed): `prepare_message` fails (Python raises

`OverflowError` inside `to_bytes`) precisely when the UTF-8 byte length of
the message does not fit in `prepend_bytes` header bytes. -/
theorem prepare_message_overflow (m : String) (H : Nat) :
    prepare_message m H = none ↔ 2 ^ (8 * H) ≤ (utf8Encode m).length := by
  have e : (2 : Nat) ^ (8 * H) = 256 ^ H := by
    rw [pow_mul]
    norm_num
  rw [e]
  by_cases h : (utf8Encode m).length < 256 ^ H
  · simp [prepare_message, to_bytes, h]
  · simp [prepare_message, to_bytes, h]
    omega

/-- Claim C9 (confirmed): the UDP receive body passes the bound port

number as the `recvfrom` buffer size, so at most `port` bytes of any
datagram are read; a longer payload is truncated before decoding and
queuing.  Concretely, with `port = 2` the datagram "abc" is queued as
"ab". -/
theorem udp_receive_truncates :
    (∀ (port : Nat) (datagram : List Nat) (address : Nat)
        (q : List (String × Nat)),
      UDP.receive_step port datagram address q =
        (utf8Decode (datagram.take port)).map
          (fun message => q ++ [(message, address)]) ∧
      (datagram.take port).length ≤ port) ∧
    UDP.receive_step 2 (utf8Encode "abc") 7 [] = some [("ab", 7)] ∧
    utf8Decode (utf8Encode "abc") = some "abc" := by
  refine ⟨fun port datagram address q => ⟨rfl, ?_⟩, by decide, by decide⟩
  simp [List.length_take]

/-- Claim C10 (confirmed): `read_message_length` is total — on any byte

string, including one shorter than the header width or empty, it returns
the big-endian value of the first `min prepend_bytes length` bytes, and
`0` on the empty input. -/
theorem read_message_length_total (b : List Nat) (H : Nat) :
    read_message_length b H =
      fromBytesBE (b.take (min H b.length)) ∧
    read_message_length [] H = 0 := by
  constructor
  · rw [read_message_length]
    rcases Nat.le_total H b.length with hle | hge
    · rw [Nat.min_eq_left hle]
    · rw [Nat.min_eq_right hge, List.take_of_length_le hge, List.take_length]
  · simp [read_message_length, fromBytesBE]

/-- Witness for C7 at a state with an attached receive thread. -/
theorem close_socket_requires_stopped_witness :
    (UDP.close_socket (UDP.State.mk (some true) true) =
        Except.error
          "Please call stop_listening_for_messages before closing the socket."
      ↔ (UDP.State.mk (some true) true).receive_messages_thread.isSome
          = true) ∧
    (UDP.close_socket (UDP.State.mk (some true) true) =
        Except.ok { UDP.State.mk (some true) true with socket_open := false }
      ↔ (UDP.State.mk (some true) true).receive_messages_thread = none) ∧
    UDP.close_socket
        (UDP.stop_listening_for_messages (UDP.State.mk (some true) true)) =
      Except.ok
        { UDP.stop_listening_for_messages (UDP.State.mk (some true) true) with
            socket_open := false } :=
  close_socket_requires_stopped (UDP.State.mk (some true) true)

/-- Witness for C8 at a message whose two-byte length cannot fit in zero

header bytes. -/
theorem prepare_message_overflow_witness :
    prepare_message "hi" 0 = none ↔
      2 ^ (8 * 0) ≤ (utf8Encode "hi").length :=
  prepare_message_overflow "hi" 0

/-- Witness for C10 at a two-byte input read with the default header

width. -/
theorem read_message_length_total_witness :
    read_message_length [1, 2] 4 =
      fromBytesBE ([1, 2].take (min 4 [1, 2].length)) ∧
    read_message_length [] 4 = 0 :=
  read_message_length_total [1, 2] 4
